import Mathlib

/-!
Verification of the download-orchestration core of this repository:
the handler contract (`downloader/base.py`), the handler factory
(`downloader/factory.py`), the persistent history store
(`downloader/history.py`) and the scheduler persistence contract.

Python code is shallowly embedded: dataclasses become structures,
methods become functions on those structures, the SQLite tables of the
history store become explicit in-memory tables (lists of rows) with the
relevant query semantics (`ORDER BY` modelled as a stable sort on the
key, `LIMIT`/`OFFSET` as `take`/`drop`), and Python truthiness of the
fields involved (`Optional[int]`, `Optional[str]`, `str`) is made
explicit at each use site.
-/

/-! ## downloader/base.py : data model -/

/-- `DownloadOptions` from `downloader/base.py` (lines 24-38).
`retry_interval` is a Python float used only as configuration data and
never computed with in the embedded code; it is carried as a rational. -/
structure DownloadOptions where
  download_images : Bool := true
  download_videos : Bool := true
  download_compressed : Bool := true
  download_documents : Bool := true
  max_retries : Int := 3
  retry_interval : ℚ := 2
  chunk_size : Int := 1048576
  timeout : Int := 30
  min_file_size : Int := 0
  max_file_size : Int := 0
  date_from : Option String := none
  date_to : Option String := none
deriving DecidableEq, Repr

/-- `MediaItem` from `downloader/base.py` (lines 41-50). -/
structure MediaItem where
  url : String
  filename : String
  file_type : String
  size : Option Int := none
  post_id : Option String := none
  user_id : Option String := none
  published_date : Option String := none
deriving DecidableEq, Repr

/-- `BaseDownloader.IMAGE_EXTENSIONS` (`downloader/base.py` line 83). -/
def IMAGE_EXTENSIONS : List String :=
  [".jpg", ".jpeg", ".png", ".gif", ".bmp", ".tiff", ".webp"]

/-- `BaseDownloader.VIDEO_EXTENSIONS` (`downloader/base.py` line 84). -/
def VIDEO_EXTENSIONS : List String :=
  [".mp4", ".mkv", ".webm", ".mov", ".avi", ".flv", ".wmv", ".m4v"]

/-- `BaseDownloader.DOCUMENT_EXTENSIONS` (`downloader/base.py` line 85). -/
def DOCUMENT_EXTENSIONS : List String :=
  [".pdf", ".doc", ".docx", ".xls", ".xlsx", ".ppt", ".pptx"]

/-- `BaseDownloader.COMPRESSED_EXTENSIONS` (`downloader/base.py` line 86). -/
def COMPRESSED_EXTENSIONS : List String :=
  [".zip", ".rar", ".7z", ".tar", ".gz"]

/-- `BaseDownloader.get_file_type` (`downloader/base.py` lines 200-220).
`'.' + filename.rsplit('.', 1)[-1].lower() if '.' in filename else ''`:
the extension is the text after the last dot, lower-cased, with a dot
prepended; a dot-free name yields the empty extension. -/
def get_file_type (filename : String) : String :=
  let ext : String :=
    if filename.data.contains '.' then
      ⟨'.' :: ((filename.data.reverse.takeWhile (fun c => c ≠ '.')).reverse.map Char.toLower)⟩
    else ""
  if IMAGE_EXTENSIONS.contains ext then "image"
  else if VIDEO_EXTENSIONS.contains ext then "video"
  else if DOCUMENT_EXTENSIONS.contains ext then "document"
  else if COMPRESSED_EXTENSIONS.contains ext then "compressed"
  else "other"

/-- `BaseDownloader.should_download_file` (`downloader/base.py` lines
222-251).  `media_item.file_type or self.get_file_type(...)` falls back
to the extension-based type when `file_type` is the empty string, and
`if media_item.size:` is Python truthiness: the size branch runs only
when `size` is neither `None` nor `0`. -/
def should_download_file (options : DownloadOptions) (media_item : MediaItem) : Bool :=
  let file_type :=
    if media_item.file_type ≠ "" then media_item.file_type
    else get_file_type media_item.filename
  if file_type = "image" ∧ ¬ options.download_images then false
  else if file_type = "video" ∧ ¬ options.download_videos then false
  else if file_type = "document" ∧ ¬ options.download_documents then false
  else if file_type = "compressed" ∧ ¬ options.download_compressed then false
  else
    match media_item.size with
    | none => true
    | some size =>
      if size ≠ 0 then
        if options.min_file_size > 0 ∧ size < options.min_file_size then false
        else if options.max_file_size > 0 ∧ size > options.max_file_size then false
        else true
      else true

/-- The nine characters replaced by `BaseDownloader.sanitize_filename`
(`downloader/base.py` line 264): the regex class `[<>:"/\\|?*]`. -/
def invalid_filename_chars : List Char :=
  ['<', '>', ':', '\"', '/', '\\', '|', '?', '*']

/-- Character-level action of `re.sub(r'[<>:"/\\|?*]', '_', ·)`. -/
def sanitize_char (c : Char) : Char :=
  if invalid_filename_chars.contains c then '_' else c

/-- `BaseDownloader.sanitize_filename` (`downloader/base.py` lines
253-264): every occurrence of a character of the class is replaced by
an underscore, all other characters pass through. -/
def sanitize_filename (filename : String) : String :=
  ⟨filename.data.map sanitize_char⟩

/-! ## downloader/factory.py : handler registry and selection

Handler classes are Python class objects compared by identity; the
embedding is polymorphic over a type `C` of class identifiers with
decidable equality, together with an interpretation
`supports : C → String → Bool` of each class's `supports_url` method.
A constructed downloader instance records which class it instantiates
and the constructor arguments (`download_folder`, `options`). -/

/-- A downloader instance as returned by
`DownloaderFactory.get_downloader`: a native handler instance holding
its class and constructor arguments, a `YtDlpDownloader` instance, or a
`GenericDownloader` instance (`downloader/factory.py` lines 75-114). -/
inductive Handler (C : Type) where
  | native (cls : C) (download_folder : String) (options : DownloadOptions)
  | ytdlp (download_folder : String) (options : DownloadOptions)
  | generic (download_folder : String) (options : DownloadOptions)
deriving DecidableEq, Repr

/-- `DownloaderFactory.register` (`downloader/factory.py` lines 29-42):
append the class to `_downloader_classes` unless it is already present
(`if downloader_class not in cls._downloader_classes`). -/
def register {C : Type} [DecidableEq C] (registry : List C) (downloader_class : C) : List C :=
  if downloader_class ∈ registry then registry else registry ++ [downloader_class]

/-- `DownloaderFactory.get_downloader` (`downloader/factory.py` lines
44-116).  Native classes are scanned in registration order and the
first whose instance reports `supports_url(url)` is returned; otherwise
the yt-dlp tier runs when `use_ytdlp_fallback` is set, the adapter is
importable (`ytdlp_available`) and its `supports_url` accepts the URL;
otherwise the generic tier returns a `GenericDownloader` when
`use_generic_fallback` is set.  Modelled from the spec:
`downloader/generic.py` is not in the excerpt; per the spec the generic
fallback "accepts any URL by contract" and is returned unconditionally
when enabled, so its import is modelled as succeeding.
`downloader/ytdlp_adapter.py` is likewise missing; per the spec the
universal fallback is consulted only when "available and enabled" and
is tested against the URL, modelled by `ytdlp_available` and
`ytdlp_supports`. -/
def get_downloader {C : Type} [DecidableEq C]
    (registry : List C) (supports : C → String → Bool)
    (url : String) (download_folder : String) (options : DownloadOptions)
    (use_generic_fallback : Bool) (use_ytdlp_fallback : Bool)
    (ytdlp_available : Bool) (ytdlp_supports : String → Bool) :
    Option (Handler C) :=
  match registry.find? (fun cls => supports cls url) with
  | some cls => some (Handler.native cls download_folder options)
  | none =>
    if use_ytdlp_fallback ∧ ytdlp_available ∧ ytdlp_supports url then
      some (Handler.ytdlp download_folder options)
    else if use_generic_fallback then
      some (Handler.generic download_folder options)
    else
      none

/-- `DownloaderFactory.get_supported_sites` (`downloader/factory.py`
lines 118-139): the `get_site_name()` of each registered class in
order, then the universal yt-dlp entry when the adapter imports. -/
def get_supported_sites {C : Type} (registry : List C)
    (get_site_name : C → String) (ytdlp_available : Bool) : List String :=
  registry.map get_site_name ++
    (if ytdlp_available then ["Universal (yt-dlp) - 1000+ sites"] else [])

/-! ## JSON serialization model

`downloader/history.py` serializes option snapshots and event payloads
with `json.dumps` and reads them back with `json.loads` inside
`try/except json.JSONDecodeError`.  The payloads are modelled as flat
string-to-string maps (`downloader/models.py` is not in the excerpt;
per the spec the stored text is "serialized structured text").
`jsonDumps` emits the compact object form and `jsonLoads` is a total
executable parser for that form, returning `none` on any other text —
the embedding of a decode that can fail. -/

/-- The opening brace character, kept out of string literals. -/
def lbraceChar : Char := Char.ofNat 123

/-- The closing brace character, kept out of string literals. -/
def rbraceChar : Char := Char.ofNat 125

/-- One JSON string literal `"…"` without escape sequences. -/
def jsonQuote (s : String) : String := "\"" ++ s ++ "\""

/-- `json.dumps` on a flat string map: `{"k": "v", …}`. -/
def jsonDumps (kvs : List (String × String)) : String :=
  lbraceChar.toString ++
    String.intercalate ", " (kvs.map (fun kv => jsonQuote kv.1 ++ ": " ++ jsonQuote kv.2)) ++
    rbraceChar.toString

/-- Characters of a string literal up to the closing quote. -/
def parseStringBody : List Char → List Char → Option (String × List Char)
  | [], _ => none
  | d :: tail, acc =>
    if d = '\"' then some (⟨acc.reverse⟩, tail)
    else parseStringBody tail (d :: acc)

/-- Parse a string literal: a leading quote, characters up to the next
quote, the closing quote; `none` otherwise. -/
def parseStringLit : List Char → Option (String × List Char)
  | [] => none
  | c :: rest =>
    if c = '\"' then parseStringBody rest [] else none

/-- Parse `"k": "v"` pairs separated by `", "`, then the closing brace. -/
def parsePairs : Nat → List Char → Option (List (String × String))
  | 0, _ => none
  | fuel + 1, cs =>
    match parseStringLit cs with
    | none => none
    | some (k, rest) =>
      match rest with
      | ':' :: ' ' :: rest2 =>
        match parseStringLit rest2 with
        | none => none
        | some (v, rest3) =>
          match rest3 with
          | [] => none
          | c :: tail =>
            if c = rbraceChar ∧ tail = [] then some [(k, v)]
            else
              match c, tail with
              | ',', ' ' :: more =>
                match parsePairs fuel more with
                | none => none
                | some kvs => some ((k, v) :: kvs)
              | _, _ => none
      | _ => none

/-- `json.loads` restricted to the flat-object form produced by
`jsonDumps`; any other text fails (`none`), standing for
`json.JSONDecodeError`. -/
def jsonLoads (s : String) : Option (List (String × String)) :=
  match s.data with
  | [] => none
  | c :: rest =>
    if c = lbraceChar then
      match rest with
      | [] => none
      | d :: tail =>
        if d = rbraceChar ∧ tail = [] then some []
        else parsePairs (rest.length + 1) rest
    else none

/-! ## downloader/models.py : persisted records

`downloader/models.py` is not in the excerpt.  Modelled from the spec:
`DownloadJob` carries a unique id, source URL, engine name, a status
string (statuses `pending|downloading|paused|completed|failed|
cancelled|skipped`, stored via `.value`), creation/start/finish
timestamps, four item counters, output folder, optional error message
and an options snapshot; `DownloadEvent` carries a type string, job id,
timestamp and a structured payload. -/

/-- Modelled from the spec: `DownloadJob` of `downloader/models.py`
(the persisted job record of §3 of the spec).  The status enum is
embedded as its `.value` string. -/
structure DownloadJob where
  id : String
  url : String
  engine : String
  status : String
  created_at : String
  started_at : Option String := none
  finished_at : Option String := none
  total_items : Int := 0
  completed_items : Int := 0
  failed_items : Int := 0
  skipped_items : Int := 0
  output_folder : String := ""
  error_message : Option String := none
  options_snapshot : List (String × String) := []
deriving DecidableEq, Repr

/-- Modelled from the spec: `DownloadEvent` of `downloader/models.py`
(the persisted append-only event record of §3 of the spec).  The event
type enum is embedded as its `.value` string. -/
structure DownloadEvent where
  type : String
  job_id : String
  timestamp : String
  payload : List (String × String) := []
deriving DecidableEq, Repr

/-! ## downloader/history.py : the SQLite store

The two tables are embedded as lists of rows in insertion order
(`events.id` is the AUTOINCREMENT rowid; `jobs.job_id` is the TEXT
primary key).  `ORDER BY <key>` is modelled as a stable insertion sort
on the key — ties keep the stored order, which is what the spec
promises for events — `LIMIT n` as `take n`, `LIMIT -1 OFFSET k` as
`drop k`, and SQL text comparison as the `≤` order on `String`, with
`NULL` below every text value. -/

/-- One row of the `jobs` table (`downloader/history.py` lines 50-67). -/
structure JobRow where
  job_id : String
  url : String
  engine : String
  status : String
  created_at : String
  started_at : Option String
  finished_at : Option String
  total_items : Int
  completed_items : Int
  failed_items : Int
  skipped_items : Int
  output_folder : Option String
  error_message : Option String
  options_json : Option String
deriving DecidableEq, Repr

/-- One row of the `events` table (`downloader/history.py` lines
70-78); `id` is the AUTOINCREMENT primary key. -/
structure EventRow where
  id : Nat
  job_id : String
  timestamp : String
  type : String
  payload_json : Option String
deriving DecidableEq, Repr

/-- The state of one `DownloadHistoryDB` database file: both tables in
stored order plus the next AUTOINCREMENT value for `events.id`. -/
structure HistoryDB where
  jobs : List JobRow := []
  events : List EventRow := []
  next_event_id : Nat := 1
deriving DecidableEq, Repr

/-- The empty database produced by `_init_db` on a fresh file. -/
def emptyHistoryDB : HistoryDB := {}

/-- SQL `ORDER BY timestamp ASC` comparison on event rows. -/
def eventTsLe (a b : EventRow) : Prop := a.timestamp ≤ b.timestamp

instance : DecidableRel eventTsLe := fun a b =>
  inferInstanceAs (Decidable (a.timestamp ≤ b.timestamp))

instance : IsTotal EventRow eventTsLe := ⟨fun a b => le_total a.timestamp b.timestamp⟩

instance : IsTrans EventRow eventTsLe := ⟨fun _ _ _ h h' => le_trans h h'⟩

/-- SQL ordering of a nullable text column: `NULL` sorts below every
string. -/
def optTextLe (a b : Option String) : Prop :=
  match a, b with
  | none, _ => True
  | some _, none => False
  | some x, some y => x ≤ y

instance : DecidableRel optTextLe := fun a b => by
  unfold optTextLe
  cases a <;> cases b <;> infer_instance

/-- SQL `ORDER BY finished_at DESC` comparison on job rows: row `a`
comes before row `b` when its `finished_at` is the larger. -/
def finishedAtGe (a b : JobRow) : Prop := optTextLe b.finished_at a.finished_at

instance : DecidableRel finishedAtGe := fun a b =>
  inferInstanceAs (Decidable (optTextLe b.finished_at a.finished_at))

instance : IsTotal JobRow finishedAtGe := by
  constructor
  intro a b
  unfold finishedAtGe optTextLe
  cases a.finished_at <;> cases b.finished_at <;> simp [le_total]

instance : IsTrans JobRow finishedAtGe := by
  constructor
  intro a b c h h'
  unfold finishedAtGe optTextLe at h h' ⊢
  cases ha : a.finished_at <;> cases hb : b.finished_at <;> cases hc : c.finished_at <;>
    simp_all <;> exact le_trans h' h

/-- The row written for a job by `DownloadHistoryDB.save_job`
(`downloader/history.py` lines 111-132): every column from the job,
the options snapshot serialized by `json.dumps`. -/
def job_to_row (job : DownloadJob) : JobRow :=
  { job_id := job.id
    url := job.url
    engine := job.engine
    status := job.status
    created_at := job.created_at
    started_at := job.started_at
    finished_at := job.finished_at
    total_items := job.total_items
    completed_items := job.completed_items
    failed_items := job.failed_items
    skipped_items := job.skipped_items
    output_folder := some job.output_folder
    error_message := job.error_message
    options_json := some (jsonDumps job.options_snapshot) }

/-- `DownloadHistoryDB.save_job` (`downloader/history.py` lines
99-136): `INSERT OR REPLACE` keyed by the `job_id` primary key — the
conflicting row, if any, is removed and the fresh row inserted. -/
def save_job (db : HistoryDB) (job : DownloadJob) : HistoryDB :=
  { db with jobs := db.jobs.filter (fun r => r.job_id ≠ job.id) ++ [job_to_row job] }

/-- `DownloadHistoryDB.append_event` (`downloader/history.py` lines
138-162): plain `INSERT`, the rowid auto-assigned. -/
def append_event (db : HistoryDB) (event : DownloadEvent) : HistoryDB :=
  { db with
    events := db.events ++
      [{ id := db.next_event_id
         job_id := event.job_id
         timestamp := event.timestamp
         type := event.type
         payload_json := some (jsonDumps event.payload) }]
    next_event_id := db.next_event_id + 1 }

/-- `DownloadHistoryDB._row_to_job` (`downloader/history.py` lines
374-398): the options text is parsed only when truthy (non-NULL and
non-empty); a parse failure leaves the empty snapshot (`except
json.JSONDecodeError: pass`); `row['output_folder'] or ''` maps a NULL
(or empty) folder to the empty string. -/
def row_to_job (row : JobRow) : DownloadJob :=
  let options : List (String × String) :=
    match row.options_json with
    | none => []
    | some s => if s ≠ "" then (jsonLoads s).getD [] else []
  { id := row.job_id
    url := row.url
    engine := row.engine
    status := row.status
    created_at := row.created_at
    started_at := row.started_at
    finished_at := row.finished_at
    total_items := row.total_items
    completed_items := row.completed_items
    failed_items := row.failed_items
    skipped_items := row.skipped_items
    output_folder := (row.output_folder.getD "")
    error_message := row.error_message
    options_snapshot := options }

/-- `DownloadHistoryDB._row_to_event` (`downloader/history.py` lines
400-414): same recovery for the payload text. -/
def row_to_event (row : EventRow) : DownloadEvent :=
  let payload : List (String × String) :=
    match row.payload_json with
    | none => []
    | some s => if s ≠ "" then (jsonLoads s).getD [] else []
  { type := row.type
    job_id := row.job_id
    timestamp := row.timestamp
    payload := payload }

/-- `DownloadHistoryDB.get_job` (`downloader/history.py` lines
206-232): `SELECT * FROM jobs WHERE job_id = ?` with `fetchone` — the
first stored row with that key, converted by `_row_to_job`. -/
def get_job (db : HistoryDB) (job_id : String) : Option DownloadJob :=
  (db.jobs.find? (fun r => r.job_id = job_id)).map row_to_job

/-- `DownloadHistoryDB.get_job_events` (`downloader/history.py` lines
234-265): events of the job in ascending timestamp order up to
`limit` (default 1000), each converted by `_row_to_event`. -/
def get_job_events (db : HistoryDB) (job_id : String) (limit : Nat) : List DownloadEvent :=
  ((((db.events.filter (fun r => r.job_id = job_id)).insertionSort eventTsLe).take limit).map
    row_to_event)

/-- SQL `ORDER BY created_at DESC` comparison on job rows. -/
def createdAtGe (a b : JobRow) : Prop := b.created_at ≤ a.created_at

instance : DecidableRel createdAtGe := fun a b =>
  inferInstanceAs (Decidable (b.created_at ≤ a.created_at))

/-- `DownloadHistoryDB.list_jobs` (`downloader/history.py` lines
164-204): optional status filter, creation time descending, `OFFSET`
then `LIMIT`, each row converted by `_row_to_job`. -/
def list_jobs (db : HistoryDB) (limit : Nat) (status : Option String) (offset : Nat) :
    List DownloadJob :=
  let selected : List JobRow :=
    match status with
    | some st => db.jobs.filter (fun r => r.status = st)
    | none => db.jobs
  ((((selected.insertionSort createdAtGe).drop offset).take limit).map row_to_job)

/-- `DownloadHistoryDB.clear_completed_jobs` (`downloader/history.py`
lines 300-345), first half: the ids selected for deletion — the
completed jobs beyond the `keep_last` most recently finished
(`ORDER BY finished_at DESC LIMIT -1 OFFSET keep_last`), the code's
`job_ids` local. -/
def clear_job_ids (db : HistoryDB) (keep_last : Nat) : List String :=
  (((db.jobs.filter (fun r => r.status = "completed")).insertionSort
      finishedAtGe).drop keep_last).map (fun r => r.job_id)

/-- `DownloadHistoryDB.clear_completed_jobs` continued: delete those
jobs and their events, or return `0` untouched when the selection is
empty. -/
def clear_completed_jobs (db : HistoryDB) (keep_last : Nat) : HistoryDB × Nat :=
  let job_ids := clear_job_ids db keep_last
  if job_ids = [] then (db, 0)
  else
    ({ db with
        jobs := db.jobs.filter (fun (r : JobRow) => r.job_id ∉ job_ids)
        events := db.events.filter (fun (r : EventRow) => r.job_id ∉ job_ids) },
      job_ids.length)

/-! ## downloader/scheduler.py : persisted scheduled jobs

`downloader/scheduler.py` is not in the excerpt; only its tests
(`tests/test_scheduler.py`) are.  The persistence contract is modelled
from the spec (§3 ScheduledJob, §4.4, §6): a `DownloadScheduler` holds
only a database path; scheduled-job state lives in the database file
behind that path, one table keyed by `job_id` with schedule type,
reference time, interval, enabled flag and the URL list.  A "world"
maps each database path to its table, so constructing a second
scheduler against the same path reads the same table. -/

/-- Modelled from the spec: `ScheduledJob` of `downloader/scheduler.py`
(§3 of the spec).  The schedule-type enum is embedded as a string of
`once|daily|weekly|interval`. -/
structure ScheduledJob where
  job_id : String
  urls : List String
  schedule_type : String
  scheduled_time : String
  interval_minutes : Nat := 0
  enabled : Bool := true
deriving DecidableEq, Repr

/-- Modelled from the spec: a `DownloadScheduler` instance as far as
persistence is concerned — it carries the database path it was
constructed with (`test_scheduler.py` line 45: `scheduler.db_path ==
temp_db`). -/
structure DownloadScheduler where
  db_path : String
deriving DecidableEq, Repr

/-- The scheduled-jobs tables of all database files: path ↦ rows. -/
def SchedWorld : Type := String → List ScheduledJob

/-- Modelled from the spec: `DownloadScheduler.schedule_job` persists
the record into the table behind the scheduler's path (upsert keyed by
`job_id`, the deterministic choice §4.4 allows) and returns the job id.
Only the persistence effect is modelled; the synchronous `SCHEDULED`
callback carries no table state. -/
def schedule_job (w : SchedWorld) (sched : DownloadScheduler) (job : ScheduledJob) :
    SchedWorld × String :=
  (fun path =>
      if path = sched.db_path then
        (w path).filter (fun (j : ScheduledJob) => j.job_id ≠ job.job_id) ++ [job]
      else w path,
    job.job_id)

/-- Modelled from the spec: `DownloadScheduler.get_all_jobs` reads
straight from the persisted table behind the scheduler's path. -/
def get_all_jobs (w : SchedWorld) (sched : DownloadScheduler) : List ScheduledJob :=
  w sched.db_path

/-! ## Claim-reading definitions and concrete stores

Definitions written from the spec's words for refinement comparison
(`should_download_file_claim`, `should_download_file_amended`), the
event-log construction used to state the event-ordering properties,
and concrete rows and stores used as evaluation inputs. -/

/-- C3 as the claim words it (a second definition following the spec,
to be compared with `should_download_file` from the source): the
type-toggle filter first, then for any item with a *known* size the
minimum filter (when the minimum is positive) and the maximum filter
(when the maximum is positive); only items with *no* known size bypass
the size filters. -/
def should_download_file_claim (options : DownloadOptions) (media_item : MediaItem) : Bool :=
  let file_type :=
    if media_item.file_type ≠ "" then media_item.file_type
    else get_file_type media_item.filename
  let type_toggle_ok : Bool :=
    ¬(file_type = "image" ∧ ¬ options.download_images) ∧
    ¬(file_type = "video" ∧ ¬ options.download_videos) ∧
    ¬(file_type = "document" ∧ ¬ options.download_documents) ∧
    ¬(file_type = "compressed" ∧ ¬ options.download_compressed)
  let size_ok : Bool :=
    match media_item.size with
    | none => true
    | some size =>
      ¬(options.min_file_size > 0 ∧ size < options.min_file_size) ∧
      ¬(options.max_file_size > 0 ∧ size > options.max_file_size)
  type_toggle_ok ∧ size_ok

/-- C3 amended: as the claim, except that an item whose known size is
`0` — a falsy value in the source's `if media_item.size:` — also
bypasses both size filters. -/
def should_download_file_amended (options : DownloadOptions) (media_item : MediaItem) : Bool :=
  let file_type :=
    if media_item.file_type ≠ "" then media_item.file_type
    else get_file_type media_item.filename
  let type_toggle_ok : Bool :=
    ¬(file_type = "image" ∧ ¬ options.download_images) ∧
    ¬(file_type = "video" ∧ ¬ options.download_videos) ∧
    ¬(file_type = "document" ∧ ¬ options.download_documents) ∧
    ¬(file_type = "compressed" ∧ ¬ options.download_compressed)
  let size_ok : Bool :=
    match media_item.size with
    | none => true
    | some size =>
      if size = 0 then true
      else
        ¬(options.min_file_size > 0 ∧ size < options.min_file_size) ∧
        ¬(options.max_file_size > 0 ∧ size > options.max_file_size)
  type_toggle_ok ∧ size_ok

/-- A job row whose stored options text is not valid JSON. -/
def bad_json_job_row : JobRow where
  job_id := "j1"
  url := "https://a"
  engine := "native"
  status := "completed"
  created_at := "2024-01-01"
  started_at := none
  finished_at := some "2024-01-02"
  total_items := 1
  completed_items := 1
  failed_items := 0
  skipped_items := 0
  output_folder := some "out"
  error_message := none
  options_json := some "not json"

/-- An event row whose stored payload text is not valid JSON. -/
def bad_json_event_row : EventRow where
  id := 1
  job_id := "j1"
  timestamp := "2024-01-01"
  type := "log"
  payload_json := some "not json"

/-- A store holding exactly the two malformed rows. -/
def bad_json_db : HistoryDB where
  jobs := [bad_json_job_row]
  events := [bad_json_event_row]
  next_event_id := 2

/-- The job record C8 expects back for `bad_json_job_row`: every
column intact, the options snapshot empty. -/
def recovered_job : DownloadJob where
  id := "j1"
  url := "https://a"
  engine := "native"
  status := "completed"
  created_at := "2024-01-01"
  started_at := none
  finished_at := some "2024-01-02"
  total_items := 1
  completed_items := 1
  failed_items := 0
  skipped_items := 0
  output_folder := "out"
  error_message := none
  options_snapshot := []

/-- The event record C8 expects back for `bad_json_event_row`. -/
def recovered_event : DownloadEvent where
  type := "log"
  job_id := "j1"
  timestamp := "2024-01-01"
  payload := []

/-- The database obtained from a fresh file by a sequence of
`append_event` calls. -/
def mkHistoryDB (events : List DownloadEvent) : HistoryDB :=
  events.foldl append_event emptyHistoryDB

/-- The event rows laid down by consecutive `append_event` calls
starting from AUTOINCREMENT value `n`. -/
def eventRowsFrom (n : Nat) : List DownloadEvent → List EventRow
  | [] => []
  | e :: es =>
    { id := n, job_id := e.job_id, timestamp := e.timestamp, type := e.type,
      payload_json := some (jsonDumps e.payload) } :: eventRowsFrom (n + 1) es

/-- `ORDER BY` key comparison on the observable (timestamp, type)
projection of an event: by timestamp. -/
def pairTsLe (a b : String × String) : Prop := a.1 ≤ b.1

instance : DecidableRel pairTsLe := fun a b =>
  inferInstanceAs (Decidable (a.1 ≤ b.1))

instance : IsTotal (String × String) pairTsLe := ⟨fun a b => le_total a.1 b.1⟩

instance : IsTrans (String × String) pairTsLe := ⟨fun _ _ _ h h' => le_trans h h'⟩

/-- A minimal job row for concrete store states. -/
def sample_job_row (id status : String) (finished : Option String) : JobRow where
  job_id := id
  url := "https://a"
  engine := "native"
  status := status
  created_at := "2024-01-01"
  started_at := none
  finished_at := finished
  total_items := 0
  completed_items := 0
  failed_items := 0
  skipped_items := 0
  output_folder := none
  error_message := none
  options_json := none

/-- A minimal event row for concrete store states. -/
def sample_event_row (i : Nat) (jid : String) : EventRow where
  id := i
  job_id := jid
  timestamp := "t"
  type := "log"
  payload_json := none

/-- A store with three completed jobs (finished on the 1st, 3rd and
2nd) and one pending job, plus one event per early job. -/
def c5_store : HistoryDB where
  jobs := [sample_job_row "a" "completed" (some "2024-01-01"),
           sample_job_row "b" "completed" (some "2024-01-03"),
           sample_job_row "c" "completed" (some "2024-01-02"),
           sample_job_row "d" "pending" none]
  events := [sample_event_row 1 "a", sample_event_row 2 "b"]
  next_event_id := 3

/-! ## Theorems -/

/-- `sanitize_char` is idempotent: `'_'` is not in the replaced class. -/
theorem sanitize_char_idem (c : Char) : sanitize_char (sanitize_char c) = sanitize_char c := by
  by_cases h : invalid_filename_chars.contains c
  · have h1 : sanitize_char c = '_' := by unfold sanitize_char; rw [if_pos h]
    rw [h1]
    decide
  · have h1 : sanitize_char c = c := by unfold sanitize_char; rw [if_neg h]
    rw [h1]
    exact h1

/-- C10: `sanitize_filename` is idempotent: the replacement character
`'_'` is not among the nine replaced characters `< > : " / \ | ? *`,
and every other character passes through unchanged, so a second pass
finds nothing left to replace. -/
theorem C10_sanitize_filename_idempotent (s : String) :
    sanitize_filename (sanitize_filename s) = sanitize_filename s := by
  unfold sanitize_filename
  simp only [List.map_map]
  congr 1
  exact List.map_congr_left (fun c _ => sanitize_char_idem c)

/-- C9: `DownloaderFactory.register` is idempotent on an
already-present class: a second registration of the same class leaves
the registry list identical — hence the handler count and the
supported-sites listing — and registering never reorders the classes
already present (the registry is either unchanged or extended at the
tail). -/
theorem C9_register_idempotent {C : Type} [DecidableEq C]
    (registry : List C) (cls : C) :
    register (register registry cls) cls = register registry cls ∧
    (register registry cls = registry ∨ register registry cls = registry ++ [cls]) ∧
    (register (register registry cls) cls).length = (register registry cls).length ∧
    ∀ (get_site_name : C → String) (ytdlp_available : Bool),
      get_supported_sites (register (register registry cls) cls) get_site_name ytdlp_available =
        get_supported_sites (register registry cls) get_site_name ytdlp_available := by
  have hmem : cls ∈ register registry cls := by
    unfold register
    by_cases h : cls ∈ registry
    · rw [if_pos h]; exact h
    · rw [if_neg h]; exact List.mem_append_right _ (List.mem_singleton_self cls)
  have hfix : register (register registry cls) cls = register registry cls := by
    conv_lhs => rw [register]
    rw [if_pos hmem]
  refine ⟨hfix, ?_, by rw [hfix], fun gs yt => by rw [hfix]⟩
  unfold register
  by_cases h : cls ∈ registry
  · exact Or.inl (by simp [h])
  · exact Or.inr (by simp [h])

/-- C6: a scheduled job persists across scheduler restarts — after
`schedule_job` on one `DownloadScheduler`, `get_all_jobs` on a freshly
constructed scheduler backed by the same database path returns a list
containing the job, and the returned id is the job's id. -/
theorem C6_schedule_job_persists (w : SchedWorld) (db_path : String) (job : ScheduledJob) :
    job ∈ get_all_jobs (schedule_job w (DownloadScheduler.mk db_path) job).1
        (DownloadScheduler.mk db_path) ∧
      (schedule_job w (DownloadScheduler.mk db_path) job).2 = job.job_id := by
  constructor
  · unfold get_all_jobs schedule_job
    simp
  · rfl

/-- C1: for every registration order and URL, if some registered class
reports `supports_url(url)`, then `get_downloader` returns an instance
of the first such class in registration order, constructed with the
requested folder and options — never a later handler and never a
fallback. -/
theorem C1_first_matching_native_handler {C : Type} [DecidableEq C]
    (earlier later : List C) (cls : C) (supports : C → String → Bool)
    (url download_folder : String) (options : DownloadOptions)
    (use_generic_fallback use_ytdlp_fallback ytdlp_available : Bool)
    (ytdlp_supports : String → Bool)
    (h_earlier : ∀ c ∈ earlier, supports c url = false)
    (h_cls : supports cls url = true) :
    get_downloader (earlier ++ cls :: later) supports url download_folder options
        use_generic_fallback use_ytdlp_fallback ytdlp_available ytdlp_supports =
      some (Handler.native cls download_folder options) := by
  unfold get_downloader
  have hfind : (earlier ++ cls :: later).find? (fun c => supports c url) = some cls := by
    rw [List.find?_append]
    have h1 : earlier.find? (fun c => supports c url) = none :=
      List.find?_eq_none.mpr (fun c hc => by simp [h_earlier c hc])
    rw [h1]
    simp [List.find?_cons, h_cls]
  rw [hfind]

/-- Witness for C1: three registered classes, the second is the first
match, and the native instance built from it is returned. -/
theorem C1_first_matching_native_handler_witness :
    get_downloader ([0] ++ 1 :: [2]) (fun c _ => c == 1) "https://example.com/a" "folder"
        {} true true true (fun _ => true) =
      some (Handler.native 1 "folder" {}) :=
  C1_first_matching_native_handler [0] [2] 1 (fun c _ => c == 1) "https://example.com/a"
    "folder" {} true true true (fun _ => true) (by decide) (by decide)

/-- C2 as stated is false: `get_downloader` can return `None` while the
yt-dlp fallback is enabled — with no native match, the generic fallback
disabled, and a URL the yt-dlp adapter's `supports_url` rejects, the
yt-dlp tier is consulted and declines, and `None` is returned even
though that fallback was not disabled. -/
theorem C2_counterexample :
    ¬ (∀ (use_ytdlp use_generic : Bool) (ytdlp_supports : String → Bool),
        get_downloader ([] : List Nat) (fun _ _ => false) "https://example.com/a" "folder" {}
            use_generic use_ytdlp true ytdlp_supports = none →
          use_ytdlp = false ∧ use_generic = false) := by
  intro h
  have := h true false (fun _ => false) (by decide)
  exact absurd this.1 (by decide)

/-- C2 amended: `get_downloader` returns `None` exactly when no
registered native handler's `supports_url` matches the URL, the yt-dlp
tier yields nothing (disabled, unavailable, or its `supports_url`
rejects the URL), and the generic fallback is disabled; whenever the
generic fallback is enabled, some handler is returned for every URL. -/
theorem C2_none_characterization {C : Type} [DecidableEq C]
    (registry : List C) (supports : C → String → Bool)
    (url download_folder : String) (options : DownloadOptions)
    (use_generic_fallback use_ytdlp_fallback ytdlp_available : Bool)
    (ytdlp_supports : String → Bool) :
    (get_downloader registry supports url download_folder options
          use_generic_fallback use_ytdlp_fallback ytdlp_available ytdlp_supports = none ↔
        registry.find? (fun c => supports c url) = none ∧
          ¬(use_ytdlp_fallback = true ∧ ytdlp_available = true ∧ ytdlp_supports url = true) ∧
          use_generic_fallback = false) ∧
      (use_generic_fallback = true →
        (get_downloader registry supports url download_folder options
            use_generic_fallback use_ytdlp_fallback ytdlp_available ytdlp_supports).isSome =
          true) := by
  unfold get_downloader
  cases hfind : registry.find? (fun c => supports c url) with
  | some cls => simp
  | none =>
    by_cases hyt : use_ytdlp_fallback = true ∧ ytdlp_available = true ∧ ytdlp_supports url = true
    · constructor
      · rw [if_pos (by simp [hyt])]
        simp [hyt]
      · intro _
        rw [if_pos (by simp [hyt])]
        rfl
    · rw [if_neg (by simpa using hyt)]
      by_cases hgen : use_generic_fallback = true
      · constructor
        · rw [if_pos hgen]
          simp [hgen]
        · intro _
          rw [if_pos hgen]
          rfl
      · rw [if_neg hgen]
        simp [hyt, hgen]

/-- Witness for C2's amended theorem: with the generic fallback
enabled, a URL nothing else accepts still gets a handler. -/
theorem C2_none_characterization_witness :
    (get_downloader ([] : List Nat) (fun _ _ => false) "https://example.com/a" "folder" {}
        true false true (fun _ => false)).isSome = true :=
  (C2_none_characterization ([] : List Nat) (fun _ _ => false) "https://example.com/a"
    "folder" {} true false true (fun _ => false)).2 rfl

/-- C3 as stated is false on the code: an item with the known size `0`
is below a positive minimum, so the claim rejects it, but
`if media_item.size:` treats `0` as falsy and the source accepts it. -/
theorem C3_counterexample :
    should_download_file { min_file_size := 1000 }
        { url := "u", filename := "f.jpg", file_type := "image", size := some 0 } ≠
      should_download_file_claim { min_file_size := 1000 }
        { url := "u", filename := "f.jpg", file_type := "image", size := some 0 } := by
  decide

/-- C3 amended: `should_download_file` applies the type-toggle filter,
then the min-size and max-size filters for items with a known nonzero
size; items with no known size, or with size `0`, bypass both size
filters.  In particular a 500-byte item is rejected when
`min_file_size = 1000` and accepted when `min_file_size = 0`. -/
theorem C3_should_download_file_filters :
    (∀ (options : DownloadOptions) (media_item : MediaItem),
        should_download_file options media_item =
          should_download_file_amended options media_item) ∧
      should_download_file { min_file_size := 1000 }
          { url := "u", filename := "f.jpg", file_type := "", size := some 500 } = false ∧
      should_download_file { min_file_size := 0 }
          { url := "u", filename := "f.jpg", file_type := "", size := some 500 } = true := by
  refine ⟨fun options media_item => ?_, by decide, by decide⟩
  unfold should_download_file should_download_file_amended
  split_ifs <;> cases media_item.size <;> simp_all <;>
    simp only [Bool.and_assoc, ← decide_not, Int.not_lt]

/-- C7: `save_job` is an upsert keyed by job id.  A save followed by a
save under the same id collapses to the latter save alone — in
particular saving the same job twice equals saving it once — and after
any save exactly one row holds that id, carrying the latest values with
the options snapshot re-serialized to text. -/
theorem C7_save_job_upsert (db : HistoryDB) (job job2 : DownloadJob)
    (h_same_id : job2.id = job.id) :
    save_job (save_job db job) job2 = save_job db job2 ∧
      (save_job db job2).jobs.filter (fun r => r.job_id = job2.id) = [job_to_row job2] ∧
      (job_to_row job2).options_json = some (jsonDumps job2.options_snapshot) := by
  refine ⟨?_, ?_, rfl⟩
  · unfold save_job
    congr 1
    rw [List.filter_append, List.filter_filter]
    have hsingle : List.filter (fun r => decide (r.job_id ≠ job2.id)) [job_to_row job] = [] := by
      simp [job_to_row, h_same_id]
    rw [hsingle, List.append_nil]
    congr 1
    exact List.filter_congr (fun r _ => by rw [h_same_id, Bool.and_self])
  · unfold save_job
    simp only [List.filter_append, List.filter_filter]
    have hnil : (db.jobs.filter fun r => decide (r.job_id = job2.id) &&
        decide (r.job_id ≠ job2.id)) = [] := by
      apply List.filter_eq_nil_iff.mpr
      intro r _
      simp
    rw [hnil]
    simp [job_to_row]

/-- Witness for C7: two concrete jobs sharing an id; the second save
fully overwrites the first. -/
theorem C7_save_job_upsert_witness :
    (save_job (save_job emptyHistoryDB
          { id := "j1", url := "https://a", engine := "native", status := "pending",
            created_at := "2024-01-01" })
        { id := "j1", url := "https://b", engine := "native", status := "completed",
          created_at := "2024-01-02" } =
      save_job emptyHistoryDB
        { id := "j1", url := "https://b", engine := "native", status := "completed",
          created_at := "2024-01-02" }) ∧
      (save_job emptyHistoryDB
          { id := "j1", url := "https://b", engine := "native", status := "completed",
            created_at := "2024-01-02" }).jobs.filter (fun r => r.job_id = "j1") =
        [job_to_row
          { id := "j1", url := "https://b", engine := "native", status := "completed",
            created_at := "2024-01-02" }] := by
  have h := C7_save_job_upsert emptyHistoryDB
    { id := "j1", url := "https://a", engine := "native", status := "pending",
      created_at := "2024-01-01" }
    { id := "j1", url := "https://b", engine := "native", status := "completed",
      created_at := "2024-01-02" } rfl
  exact ⟨h.1, h.2.1⟩

/-- C8: a stored row whose serialized options/payload text is not valid
JSON is still returned by the read operations — `get_job` yields the
job with every column intact and the options snapshot replaced by the
empty structure, `_row_to_event` yields the event with the payload
replaced by the empty structure, and `list_jobs`/`get_job_events`
(which convert every selected row the same way) still include the
record; the decode failure is never propagated. -/
theorem C8_malformed_text_recovered :
    (∀ (db : HistoryDB) (job_id : String) (r : JobRow) (s : String),
        db.jobs.find? (fun row => row.job_id = job_id) = some r →
        r.options_json = some s → s ≠ "" → jsonLoads s = none →
        get_job db job_id = some
          { id := r.job_id, url := r.url, engine := r.engine, status := r.status,
            created_at := r.created_at, started_at := r.started_at,
            finished_at := r.finished_at, total_items := r.total_items,
            completed_items := r.completed_items, failed_items := r.failed_items,
            skipped_items := r.skipped_items, output_folder := r.output_folder.getD "",
            error_message := r.error_message, options_snapshot := [] }) ∧
      (∀ (r : EventRow) (s : String),
          r.payload_json = some s → s ≠ "" → jsonLoads s = none →
          row_to_event r =
            { type := r.type, job_id := r.job_id, timestamp := r.timestamp, payload := [] }) ∧
      (∀ (db : HistoryDB) (r : JobRow), r ∈ db.jobs →
          row_to_job r ∈ list_jobs db db.jobs.length none 0) ∧
      (∀ (db : HistoryDB) (r : EventRow), r ∈ db.events → ∀ job_id, r.job_id = job_id →
          row_to_event r ∈ get_job_events db job_id db.events.length) := by
  refine ⟨?_, ?_, ?_, ?_⟩
  · intro db job_id r s hfind hopt hs hparse
    unfold get_job row_to_job
    rw [hfind]
    simp [hopt, hs, hparse]
  · intro r s hopt hs hparse
    unfold row_to_event
    simp [hopt, hs, hparse]
  · intro db r hr
    unfold list_jobs
    simp only [List.drop_zero]
    rw [List.take_of_length_le (le_of_eq (List.length_insertionSort _ _))]
    exact List.mem_map_of_mem _ ((List.mem_insertionSort _).mpr hr)
  · intro db r hr job_id hjid
    unfold get_job_events
    rw [List.take_of_length_le (by
      rw [List.length_insertionSort]
      exact List.length_filter_le _ _)]
    exact List.mem_map_of_mem _
      ((List.mem_insertionSort _).mpr (List.mem_filter.mpr ⟨hr, by simp [hjid]⟩))

/-- Witness for C8: a store whose one job row and one event row both
hold unparsable text; `get_job` and `_row_to_event` still return the
records, with empty options/payload. -/
theorem C8_malformed_text_recovered_witness :
    get_job bad_json_db "j1" = some recovered_job ∧
      row_to_event bad_json_event_row = recovered_event := by
  constructor
  · have h := C8_malformed_text_recovered.1 bad_json_db "j1" bad_json_job_row "not json"
      (by decide) rfl (by decide) (by decide)
    rw [h]
    rfl
  · have h := C8_malformed_text_recovered.2.1 bad_json_event_row "not json" rfl (by decide)
      (by decide)
    rw [h]
    rfl

/-- Folding `append_event` appends exactly the rows of the appended
events, with consecutive AUTOINCREMENT ids. -/
theorem foldl_append_event_events (events : List DownloadEvent) :
    ∀ db : HistoryDB, (events.foldl append_event db).events =
      db.events ++ eventRowsFrom db.next_event_id events := by
  induction events with
  | nil => intro db; simp [eventRowsFrom]
  | cons e es ih =>
    intro db
    rw [List.foldl_cons, ih (append_event db e)]
    simp [append_event, eventRowsFrom]

/-- Filtering the laid-down rows by job id and projecting to
(timestamp, type) recovers the projection of the appended events with
that job id, whatever the starting AUTOINCREMENT value. -/
theorem eventRowsFrom_filter_map (job_id : String) (events : List DownloadEvent) :
    ∀ n : Nat,
      (((eventRowsFrom n events).filter (fun r => r.job_id = job_id)).map
          (fun r => (r.timestamp, r.type))) =
        ((events.filter (fun e => e.job_id = job_id)).map (fun e => (e.timestamp, e.type))) := by
  induction events with
  | nil => intro n; simp [eventRowsFrom]
  | cons e es ih =>
    intro n
    by_cases h : e.job_id = job_id
    · simp [eventRowsFrom, List.filter_cons, h, ih (n + 1)]
    · simp [eventRowsFrom, List.filter_cons, h, ih (n + 1)]

/-- On a store built by `append_event` calls, `get_job_events`
projected to (timestamp, type) is the stable sort by timestamp of the
per-job appended events, truncated to the limit. -/
theorem get_job_events_pairs (events : List DownloadEvent) (job_id : String) (limit : Nat) :
    (get_job_events (mkHistoryDB events) job_id limit).map (fun e => (e.timestamp, e.type)) =
      (((events.filter (fun e => e.job_id = job_id)).map
          (fun e => (e.timestamp, e.type))).insertionSort pairTsLe).take limit := by
  unfold get_job_events mkHistoryDB
  rw [foldl_append_event_events]
  show ((((List.filter _ (List.nil ++ eventRowsFrom 1 events)).insertionSort
    eventTsLe).take limit).map _).map _ = _
  rw [List.nil_append, List.map_map, List.map_take]
  have hcomp : ((fun e : DownloadEvent => (e.timestamp, e.type)) ∘ row_to_event) =
      (fun r : EventRow => (r.timestamp, r.type)) := funext fun r => rfl
  rw [hcomp,
    List.map_insertionSort eventTsLe pairTsLe (fun r : EventRow => (r.timestamp, r.type)) _
      (fun a _ b _ => Iff.rfl),
    eventRowsFrom_filter_map]

/-- A filter that accepts the repeated element keeps the whole
replicated list. -/
theorem filter_replicate_pos {α : Type} (p : α → Bool) (a : α) (h : p a = true) :
    ∀ n, (List.replicate n a).filter p = List.replicate n a := by
  intro n
  induction n with
  | zero => rfl
  | succ n ih => rw [List.replicate_succ, List.filter_cons]
                 simp [h, ih]

/-- A replicated list is pairwise related under any relation that
relates the element to itself. -/
theorem pairwise_replicate_self {α : Type} (R : α → α → Prop) (a : α) (h : R a a) :
    ∀ n, (List.replicate n a).Pairwise R := by
  intro n
  induction n with
  | zero => exact List.Pairwise.nil
  | succ n ih =>
    rw [List.replicate_succ]
    exact List.Pairwise.cons (fun b hb => (List.eq_of_mem_replicate hb) ▸ h) ih

/-- C4 as stated is false: `get_job_events` reads at most its query
limit (1000 by default), so after 1001 appends for one job id only 1000
events come back — the count of returned events does not always equal
the number of appends. -/
theorem C4_counterexample :
    ¬ (∀ (events : List DownloadEvent) (job_id : String),
        (get_job_events (mkHistoryDB events) job_id 1000).length =
          (events.filter (fun e => e.job_id = job_id)).length) := by
  intro h
  have h1 := h (List.replicate 1001 { type := "log", job_id := "j", timestamp := "t" }) "j"
  have hpairs := get_job_events_pairs
    (List.replicate 1001 { type := "log", job_id := "j", timestamp := "t" }) "j" 1000
  rw [filter_replicate_pos _ _ (by decide) 1001, List.map_replicate,
    List.Sorted.insertionSort_eq
      (pairwise_replicate_self pairTsLe ("t", "log") (le_refl "t") 1001)] at hpairs
  have hlen : (get_job_events
      (mkHistoryDB (List.replicate 1001 { type := "log", job_id := "j", timestamp := "t" }))
      "j" 1000).length = 1000 := by
    have hl := congrArg List.length hpairs
    rw [List.length_map, List.length_take, List.length_replicate] at hl
    omega
  rw [hlen, filter_replicate_pos _ _ (by decide) 1001, List.length_replicate] at h1
  exact absurd h1 (by decide)

/-- C4 amended: for every job id and every sequence of `append_event`
calls, `get_job_events` returns the per-job events in non-decreasing
timestamp order with insertion order preserved among equal timestamps
(its (timestamp, type) projection is the stable sort by timestamp of
the per-job appends), and the number of returned events is the minimum
of the query limit and the number of appends for that id — equal to
the appends exactly when they do not exceed the limit. -/
theorem C4_get_job_events_sorted_and_counted
    (events : List DownloadEvent) (job_id : String) (limit : Nat) :
    (get_job_events (mkHistoryDB events) job_id limit).map (fun e => (e.timestamp, e.type)) =
        (((events.filter (fun e => e.job_id = job_id)).map
            (fun e => (e.timestamp, e.type))).insertionSort pairTsLe).take limit ∧
      List.Sorted (fun a b : DownloadEvent => a.timestamp ≤ b.timestamp)
        (get_job_events (mkHistoryDB events) job_id limit) ∧
      (get_job_events (mkHistoryDB events) job_id limit).length =
        min limit (events.filter (fun e => e.job_id = job_id)).length := by
  have hp := get_job_events_pairs events job_id limit
  refine ⟨hp, ?_, ?_⟩
  · have hsorted : List.Pairwise pairTsLe
        ((((events.filter (fun e => e.job_id = job_id)).map
          (fun e => (e.timestamp, e.type))).insertionSort pairTsLe).take limit) :=
      List.Pairwise.sublist (List.take_sublist _ _) (List.sorted_insertionSort pairTsLe _)
    rw [← hp] at hsorted
    have h2 : List.Pairwise
        (fun a b : DownloadEvent => pairTsLe (a.timestamp, a.type) (b.timestamp, b.type))
        (get_job_events (mkHistoryDB events) job_id limit) := List.pairwise_map.mp hsorted
    exact h2.imp (fun h => h)
  · have hl := congrArg List.length hp
    rw [List.length_map] at hl
    rw [hl, List.length_take, List.length_insertionSort, List.length_map]

/-- C5: with more completed jobs than `keep_last` and distinct primary
keys, `clear_completed_jobs` returns the number of jobs deleted
(`n − keep_last`), keeps exactly `keep_last` completed jobs, leaves
jobs of every other status untouched, deletes the events of exactly the
deleted jobs, and every deleted completed job finished no later (in the
store's text order, `NULL` lowest) than every kept one. -/
theorem C5_clear_completed_jobs (db : HistoryDB) (keep_last : Nat)
    (h_nodup : (db.jobs.map JobRow.job_id).Nodup)
    (h_more : keep_last < (db.jobs.filter (fun r => r.status = "completed")).length) :
    (clear_completed_jobs db keep_last).2 =
        (db.jobs.filter (fun r => r.status = "completed")).length - keep_last ∧
      ((clear_completed_jobs db keep_last).1.jobs.filter
          (fun r => r.status = "completed")).length = keep_last ∧
      (clear_completed_jobs db keep_last).1.jobs.filter (fun r => r.status ≠ "completed") =
        db.jobs.filter (fun r => r.status ≠ "completed") ∧
      (clear_completed_jobs db keep_last).1.events =
        db.events.filter (fun e => e.job_id ∉ clear_job_ids db keep_last) ∧
      (∀ a ∈ (clear_completed_jobs db keep_last).1.jobs, a.status = "completed" →
        ∀ b ∈ db.jobs, b.status = "completed" → b.job_id ∈ clear_job_ids db keep_last →
          optTextLe b.finished_at a.finished_at) := by
  have hinj : ∀ x ∈ db.jobs, ∀ y ∈ db.jobs, x.job_id = y.job_id → x = y :=
    fun x hx y hy hxy => List.inj_on_of_nodup_map h_nodup hx hy hxy
  have hlen_sorted :
      ((db.jobs.filter (fun r => r.status = "completed")).insertionSort finishedAtGe).length =
        (db.jobs.filter (fun r => r.status = "completed")).length :=
    List.length_insertionSort _ _
  have hk2 : keep_last <
      ((db.jobs.filter (fun r => r.status = "completed")).insertionSort finishedAtGe).length := by
    rw [hlen_sorted]; exact h_more
  have hids_len : (clear_job_ids db keep_last).length =
      (db.jobs.filter (fun r => r.status = "completed")).length - keep_last := by
    unfold clear_job_ids
    rw [List.length_map, List.length_drop, hlen_sorted]
  have hids_ne : clear_job_ids db keep_last ≠ [] := by
    intro hnil
    have := hids_len
    rw [hnil] at this
    simp only [List.length_nil] at this
    omega
  have hres : clear_completed_jobs db keep_last =
      ({ db with
          jobs := db.jobs.filter
            (fun (r : JobRow) => r.job_id ∉ clear_job_ids db keep_last)
          events := db.events.filter
            (fun (r : EventRow) => r.job_id ∉ clear_job_ids db keep_last) },
        (clear_job_ids db keep_last).length) := by
    unfold clear_completed_jobs
    rw [if_neg hids_ne]
  have hsorted_sub : ∀ r,
      r ∈ (db.jobs.filter (fun r => r.status = "completed")).insertionSort finishedAtGe →
        r ∈ db.jobs :=
    fun r hr => (List.mem_filter.mp ((List.mem_insertionSort _).mp hr)).1
  have hdropped_sub : ∀ r,
      r ∈ ((db.jobs.filter (fun r => r.status = "completed")).insertionSort
          finishedAtGe).drop keep_last →
        r ∈ (db.jobs.filter (fun r => r.status = "completed")).insertionSort finishedAtGe :=
    fun r hr => List.drop_subset _ _ hr
  have hM1 : ∀ r ∈ db.jobs, (r.job_id ∈ clear_job_ids db keep_last ↔
      r ∈ ((db.jobs.filter (fun r => r.status = "completed")).insertionSort
        finishedAtGe).drop keep_last) := by
    intro r hr
    constructor
    · intro hid
      obtain ⟨d, hd, hdid⟩ := List.mem_map.mp hid
      have : d = r := hinj d (hsorted_sub d (hdropped_sub d hd)) r hr hdid
      exact this ▸ hd
    · intro hd
      exact List.mem_map_of_mem _ hd
  have hnodup_sorted :
      ((db.jobs.filter (fun r => r.status = "completed")).insertionSort finishedAtGe).Nodup :=
    ((List.perm_insertionSort finishedAtGe _).symm).nodup
      ((List.Nodup.of_map _ h_nodup).filter _)
  have hsplit :
      (((db.jobs.filter (fun r => r.status = "completed")).insertionSort
            finishedAtGe).take keep_last) ++
          (((db.jobs.filter (fun r => r.status = "completed")).insertionSort
            finishedAtGe).drop keep_last) =
        (db.jobs.filter (fun r => r.status = "completed")).insertionSort finishedAtGe :=
    List.take_append_drop _ _
  have hpairwise :
      List.Pairwise finishedAtGe
        ((db.jobs.filter (fun r => r.status = "completed")).insertionSort finishedAtGe) :=
    List.sorted_insertionSort _ _
  have hRel : ∀ x ∈ ((db.jobs.filter (fun r => r.status = "completed")).insertionSort
        finishedAtGe).take keep_last,
      ∀ y ∈ ((db.jobs.filter (fun r => r.status = "completed")).insertionSort
        finishedAtGe).drop keep_last, finishedAtGe x y := by
    rw [← hsplit] at hpairwise
    exact (List.pairwise_append.mp hpairwise).2.2
  have hdisj : ∀ x ∈ ((db.jobs.filter (fun r => r.status = "completed")).insertionSort
        finishedAtGe).take keep_last,
      x ∉ ((db.jobs.filter (fun r => r.status = "completed")).insertionSort
        finishedAtGe).drop keep_last := by
    rw [← hsplit] at hnodup_sorted
    exact fun x hx => (List.disjoint_of_nodup_append hnodup_sorted) hx
  have htake_id : ∀ x ∈ ((db.jobs.filter (fun r => r.status = "completed")).insertionSort
        finishedAtGe).take keep_last,
      x.job_id ∉ clear_job_ids db keep_last := by
    intro x hx hid
    have hxjobs : x ∈ db.jobs := hsorted_sub x (List.take_subset _ _ hx)
    exact hdisj x hx ((hM1 x hxjobs).mp hid)
  have htake_mem : ∀ r ∈ db.jobs, r.job_id ∉ clear_job_ids db keep_last →
      r.status = "completed" →
      r ∈ ((db.jobs.filter (fun r => r.status = "completed")).insertionSort
        finishedAtGe).take keep_last := by
    intro r hr hnid hstat
    have hsortmem : r ∈ (db.jobs.filter (fun r => r.status = "completed")).insertionSort
        finishedAtGe :=
      (List.mem_insertionSort _).mpr (List.mem_filter.mpr ⟨hr, by simp [hstat]⟩)
    rw [← hsplit] at hsortmem
    rcases List.mem_append.mp hsortmem with h | h
    · exact h
    · exact absurd ((hM1 r hr).mpr h) hnid
  refine ⟨?_, ?_, ?_, ?_, ?_⟩
  · rw [hres, hids_len]
  · rw [hres]
    have hff : (db.jobs.filter
          (fun (r : JobRow) => r.job_id ∉ clear_job_ids db keep_last)).filter
            (fun r => r.status = "completed") =
        (db.jobs.filter (fun r => r.status = "completed")).filter
          (fun (r : JobRow) => r.job_id ∉ clear_job_ids db keep_last) := by
      rw [List.filter_filter, List.filter_filter]
      exact List.filter_congr (fun r _ => Bool.and_comm _ _)
    rw [hff]
    have hperm : List.Perm
        ((db.jobs.filter (fun r => r.status = "completed")).filter
          (fun (r : JobRow) => r.job_id ∉ clear_job_ids db keep_last))
        (((db.jobs.filter (fun r => r.status = "completed")).insertionSort
            finishedAtGe).filter
          (fun (r : JobRow) => r.job_id ∉ clear_job_ids db keep_last)) :=
      ((List.perm_insertionSort finishedAtGe _).symm).filter _
    rw [hperm.length_eq]
    have hfs : ((db.jobs.filter (fun r => r.status = "completed")).insertionSort
          finishedAtGe).filter
          (fun (r : JobRow) => r.job_id ∉ clear_job_ids db keep_last) =
        ((db.jobs.filter (fun r => r.status = "completed")).insertionSort
          finishedAtGe).take keep_last := by
      conv_lhs => rw [← hsplit]
      rw [List.filter_append]
      have h1 : (((db.jobs.filter (fun r => r.status = "completed")).insertionSort
            finishedAtGe).take keep_last).filter
            (fun (r : JobRow) => r.job_id ∉ clear_job_ids db keep_last) =
          ((db.jobs.filter (fun r => r.status = "completed")).insertionSort
            finishedAtGe).take keep_last :=
        List.filter_eq_self.mpr (fun r hr => by simp [htake_id r hr])
      have h2 : (((db.jobs.filter (fun r => r.status = "completed")).insertionSort
            finishedAtGe).drop keep_last).filter
            (fun (r : JobRow) => r.job_id ∉ clear_job_ids db keep_last) = [] :=
        List.filter_eq_nil_iff.mpr (fun r hr => by
          have hmem : r.job_id ∈ clear_job_ids db keep_last := by
            unfold clear_job_ids
            exact List.mem_map_of_mem _ hr
          simp [hmem])
      rw [h1, h2, List.append_nil]
    rw [hfs, List.length_take]
    omega
  · rw [hres]
    rw [List.filter_filter]
    apply List.filter_congr
    intro r hr
    by_cases hst : r.status = "completed"
    · simp [hst]
    · have hnid : r.job_id ∉ clear_job_ids db keep_last := by
        intro hid
        have hdrop := (hM1 r hr).mp hid
        have : r ∈ db.jobs.filter (fun r => r.status = "completed") :=
          (List.mem_insertionSort _).mp (hdropped_sub r hdrop)
        have := (List.mem_filter.mp this).2
        simp at this
        exact hst this
      simp [hst, hnid]
  · rw [hres]
  · rw [hres]
    intro a ha hastat b hb hbstat hbid
    have ⟨hajobs, ha2⟩ := List.mem_filter.mp ha
    have hanid : a.job_id ∉ clear_job_ids db keep_last := by
      simpa using ha2
    have hatake := htake_mem a hajobs hanid hastat
    have hbdrop := (hM1 b hb).mp hbid
    exact hRel a hatake b hbdrop

/-- Witness for C5: on the concrete store, keeping the single most
recently finished completed job deletes the other two and their
events. -/
theorem C5_clear_completed_jobs_witness :
    (clear_completed_jobs c5_store 1).2 =
        (c5_store.jobs.filter (fun r => r.status = "completed")).length - 1 ∧
      ((clear_completed_jobs c5_store 1).1.jobs.filter
          (fun r => r.status = "completed")).length = 1 ∧
      (clear_completed_jobs c5_store 1).1.jobs.filter (fun r => r.status ≠ "completed") =
        c5_store.jobs.filter (fun r => r.status ≠ "completed") ∧
      (clear_completed_jobs c5_store 1).1.events =
        c5_store.events.filter (fun e => e.job_id ∉ clear_job_ids c5_store 1) ∧
      (∀ a ∈ (clear_completed_jobs c5_store 1).1.jobs, a.status = "completed" →
        ∀ b ∈ c5_store.jobs, b.status = "completed" → b.job_id ∈ clear_job_ids c5_store 1 →
          optTextLe b.finished_at a.finished_at) :=
  C5_clear_completed_jobs c5_store 1 (by decide) (by decide)
